import Mathlib

/-
Verification of the tiny-orm library (src/orm.py): a shallow embedding of
its data model and operations, and proofs about them.

Conventions of the embedding:
- Python scalar values are modelled by PyVal; Python floats are modelled by
  rationals (no claim exercises float rounding).
- Python exceptions are modelled by PyError; an operation that can raise
  returns Except PyError.
- The sqlite engine (an external collaborator) is modelled by Db.  Following
  sqlite, PRAGMA table_info reports a column default as the TEXT of the
  default expression (so the default 5 is reported as the string "5"), while
  the engine uses the parsed constant when an INSERT omits the column.
- Every execute_query call that the engine actually executes is recorded in a
  statement trace (List Stmt); a call that raises before executing records
  nothing.
-/

/-- PyVal models the Python scalar values that flow through the ORM. -/
inductive PyVal : Type
  | none
  | int (n : Int)
  | real (q : Rat)
  | bool (b : Bool)
  | str (s : String)
deriving Repr, DecidableEq

/-- PyError models the Python exceptions the ORM raises. -/
inductive PyError : Type
  | typeError (msg : String)
  | valueError (msg : String)
  | attributeError (msg : String)
  | operationalError (msg : String)
deriving Repr, DecidableEq

/-- Python str() / "%s" rendering of a scalar, as used when the ORM builds
DDL text.  (Float rendering is approximated by the rational literal; no
claim renders a float.) -/
def pyStr : PyVal → String
  | PyVal.none => "None"
  | PyVal.int n => toString n
  | PyVal.real q => toString q
  | PyVal.bool b => if b then "True" else "False"
  | PyVal.str s => s

/-- Python int(x) on a scalar.  int(None) raises TypeError; int of a
non-numeric string raises ValueError; int of a float truncates toward 0. -/
def pyIntFn : PyVal → Except PyError PyVal
  | PyVal.none => Except.error (PyError.typeError "int() argument must be a string or a number, not NoneType")
  | PyVal.int n => Except.ok (PyVal.int n)
  | PyVal.real q => Except.ok (PyVal.int (if q < 0 then -((-q).floor) else q.floor))
  | PyVal.bool b => Except.ok (PyVal.int (if b then 1 else 0))
  | PyVal.str s =>
    match s.toInt? with
    | some n => Except.ok (PyVal.int n)
    | Option.none => Except.error (PyError.valueError ("invalid literal for int(): " ++ s))

/-- Python float(x) on a scalar.  float(None) raises TypeError.  (float of a
numeric string is not modelled; no reconciled schema in the claims casts a
string to float.) -/
def pyFloatFn : PyVal → Except PyError PyVal
  | PyVal.none => Except.error (PyError.typeError "float() argument must be a string or a number, not NoneType")
  | PyVal.int n => Except.ok (PyVal.real n)
  | PyVal.real q => Except.ok (PyVal.real q)
  | PyVal.bool b => Except.ok (PyVal.real (if b then 1 else 0))
  | PyVal.str s => Except.error (PyError.valueError ("could not convert string to float: " ++ s))

/-- Python bool(x) on a scalar (total: every Python object has a truth value). -/
def pyBoolFn : PyVal → Except PyError PyVal
  | PyVal.none => Except.ok (PyVal.bool false)
  | PyVal.int n => Except.ok (PyVal.bool (n != 0))
  | PyVal.real q => Except.ok (PyVal.bool (q != 0))
  | PyVal.bool b => Except.ok (PyVal.bool b)
  | PyVal.str s => Except.ok (PyVal.bool (s != ""))

/-- Python str(x) on a scalar (total). -/
def pyStrFn : PyVal → Except PyError PyVal
  | v => Except.ok (PyVal.str (pyStr v))

/-- NoneSafeType from src/orm.py: wraps a typecaster so that None is always
cast to None instead of being passed to the underlying type. -/
def NoneSafeType (t : PyVal → Except PyError PyVal) : PyVal → Except PyError PyVal :=
  fun value => if value = PyVal.none then Except.ok PyVal.none else t value

/-- PyType models the Python type objects a schema may mention.  The four
types known to the ORM get their own constructors; unknownType stands for
any other Python type object (e.g. list). -/
inductive PyType : Type
  | int
  | float
  | bool
  | str
  | unknownType (typeName : String)
deriving Repr, DecidableEq

/-- The Python constructor for each known type, applied as a typecaster. -/
def typecasterOf : PyType → (PyVal → Except PyError PyVal)
  | PyType.int => pyIntFn
  | PyType.float => pyFloatFn
  | PyType.bool => pyBoolFn
  | PyType.str => pyStrFn
  | PyType.unknownType _ => fun _ => Except.error (PyError.typeError "unknown type is never cast: ORM construction rejects it")

/-- Update (or append) a key in an association list; models assignment into
a Python dict keyed by strings. -/
def setAssoc {α : Type} : List (String × α) → String → α → List (String × α)
  | [], k, v => [(k, v)]
  | (k1, v1) :: rest, k, v =>
    if k1 = k then (k, v) :: rest else (k1, v1) :: setAssoc rest k v

/-- MappedClass models a class produced by ClassFactory: a name, the
argument_typecasters dict, and the exceptions list of names assigned
verbatim. -/
structure MappedClass : Type where
  name : String
  argument_typecasters : List (String × (PyVal → Except PyError PyVal))
  exceptions : List String

/-- Record models an instance of a ClassFactory class: the data attributes
of its instance dict (fields), plus the set of exception-listed internal
slot names that have been assigned (their values are opaque object
references, never read back as scalars). -/
structure Record : Type where
  fields : List (String × PyVal)
  exemptSet : List String
deriving Repr, DecidableEq

/-- The synthesized setattr of a ClassFactory class.  Returns the (possibly
updated) instance together with the exception raised, if any; when an
exception is raised the instance is returned unchanged (the raise happens
before any store). -/
def Record.setattr (cls : MappedClass) (self : Record) (key : String) (value : PyVal) :
    Record × Option PyError :=
  if key ∈ cls.exceptions then
    ({ self with exemptSet := if key ∈ self.exemptSet then self.exemptSet else key :: self.exemptSet },
     Option.none)
  else
    match cls.argument_typecasters.lookup key with
    | Option.none =>
      (self, some (PyError.typeError ("Argument " ++ key ++ " not valid for " ++ cls.name)))
    | some typecaster =>
      match typecaster value with
      | Except.ok v => ({ self with fields := setAssoc self.fields key v }, Option.none)
      | Except.error e => (self, some e)

/-- Record.setattr in exception-monad form. -/
def setattrE (cls : MappedClass) (r : Record) (k : String) (v : PyVal) : Except PyError Record :=
  match Record.setattr cls r k v with
  | (r1, Option.none) => Except.ok r1
  | (_, some e) => Except.error e

/-- Python hasattr on a Record instance, restricted to the data attributes
and internal slots the ORM manages (class-level attributes such as methods
are not modelled; no managed name collides with one). -/
def Record.hasattr (self : Record) (key : String) : Bool :=
  (self.fields.lookup key).isSome || self.exemptSet.contains key

/-- Python getattr on a Record instance for a data attribute: standard
missing-attribute semantics (AttributeError when never set). -/
def Record.getattr (cls : MappedClass) (self : Record) (key : String) : Except PyError PyVal :=
  match self.fields.lookup key with
  | some v => Except.ok v
  | Option.none =>
    Except.error (PyError.attributeError (cls.name ++ " object has no attribute " ++ key))

/-- Assign each keyword field in order via the synthesized setattr; a raise
aborts the construction. -/
def applyKwargs (cls : MappedClass) (r : Record) : List (String × PyVal) → Except PyError Record
  | [] => Except.ok r
  | (k, v) :: rest =>
    match setattrE cls r k v with
    | Except.ok r1 => applyKwargs cls r1 rest
    | Except.error e => Except.error e

/-- Constructing an instance of a ClassFactory class: the synthesized init
assigns every keyword field via setattr, then ORMBase.init stores the
owning-store back-reference into the name-mangled internal slot (its value
is an object reference; the slot is recorded in exemptSet). -/
def Record.construct (cls : MappedClass) (kwargs : List (String × PyVal)) : Except PyError Record :=
  (applyKwargs cls { fields := [], exemptSet := [] } kwargs).bind
    (fun r => setattrE cls r "_ORMBase__orm" PyVal.none)

/-- The reserved identity column name (ORMBase.id_key_name). -/
def id_key_name : String := "__id"

/-- LiveColumn models one column of a persisted sqlite table.  colType is
the declared type text as written in the CREATE/ALTER statement; dflt is
the default expression text as PRAGMA table_info reports it (sqlite stores
the expression textually); dfltVal is the constant the engine substitutes
when an INSERT omits the column (PyVal.none when there is no default). -/
structure LiveColumn : Type where
  name : String
  colType : String
  dflt : Option String
  dfltVal : PyVal
deriving Repr, DecidableEq

/-- DbRow models one table row: the INTEGER PRIMARY KEY value (never null)
and the values of the remaining columns. -/
structure DbRow : Type where
  rowid : Int
  cells : List (String × PyVal)
deriving Repr, DecidableEq

/-- DbTable models one persisted table.  idName is the name of its INTEGER
PRIMARY KEY AUTOINCREMENT column; nextId the AUTOINCREMENT counter. -/
structure DbTable : Type where
  idName : String
  columns : List LiveColumn
  rows : List DbRow
  nextId : Int
deriving Repr, DecidableEq

/-- Db models the sqlite database: its named tables. -/
structure Db : Type where
  tables : List (String × DbTable)
deriving Repr, DecidableEq

/-- Statements the ORM sends through execute_query, tagged with what they
touch.  Only successfully executed statements enter a trace. -/
inductive Stmt : Type
  | tableExistsCheck (table : String)
  | tableInfo (table : String)
  | createTable (table : String)
  | alterAddColumn (table : String) (column : String)
  | selectAll (table : String) (columns : List String)
  | insertInto (table : String) (columns : List String)
  | selectLastId (table : String)
  | updateColumn (table : String) (column : String)
deriving Repr, DecidableEq

/-- Events of ORM construction: opening the sqlite connection, and executed
statements. -/
inductive Event : Type
  | connect
  | stmt (s : Stmt)
deriving Repr, DecidableEq

def Stmt.isDdl : Stmt → Bool
  | Stmt.createTable _ => true
  | Stmt.alterAddColumn _ _ => true
  | _ => false

def Stmt.isInsert : Stmt → Bool
  | Stmt.insertInto _ _ => true
  | _ => false

def Stmt.isUpdate : Stmt → Bool
  | Stmt.updateColumn _ _ => true
  | _ => false

def ddlCount (l : List Stmt) : Nat := (l.filter Stmt.isDdl).length
def insertCount (l : List Stmt) : Nat := (l.filter Stmt.isInsert).length
def updateCount (l : List Stmt) : Nat := (l.filter Stmt.isUpdate).length

/-- ORM.known_column_types from src/orm.py: the fixed mapping from Python
types to sqlite type text. -/
def known_column_types : PyType → Option String
  | PyType.int => some "INTEGER"
  | PyType.float => some "REAL"
  | PyType.bool => some "BOOLEAN"
  | PyType.str => some "STRING"
  | PyType.unknownType _ => Option.none

/-- sqlite type text of a known column type.  ORM construction rejects
unknown types, so the fallback is unreachable on states it builds. -/
def sqlTypeOf (t : PyType) : String := (known_column_types t).getD "KeyError"

/-- ColumnDef models one entry of self.columns: the Python type and the
value of the default key when the definition carries one. -/
structure ColumnDef : Type where
  type : PyType
  default : Option PyVal
deriving Repr, DecidableEq

/-- The default value as sync reads it: columns[name].get("default", None).
A stored default of None behaves exactly like an absent default. -/
def ColumnDef.defaultValue (cd : ColumnDef) : Option PyVal :=
  match cd.default with
  | some PyVal.none => Option.none
  | d => d

/-- InputColumn models one value of schema["columns"]: the long dict form
(with or without a type key) or the short bare-type form.  (A value that is
neither a dict nor a type makes the source read an unbound local; such
schemas are outside the embedding.) -/
inductive InputColumn : Type
  | long (type : PyType) (default : Option PyVal)
  | longMissingType
  | short (type : PyType)
deriving Repr, DecidableEq

/-- Schema models the schema argument of ORM: the table name and the column
definitions in insertion order.  (Schemas missing the table or columns keys
are rejected before anything else happens and are outside the embedding.) -/
structure Schema : Type where
  table : String
  columns : List (String × InputColumn)
deriving Repr, DecidableEq

/-- ORMState models a constructed ORM instance: its table name and
self.columns (identity column first, then the declared columns). -/
structure ORMState : Type where
  table : String
  columns : List (String × ColumnDef)
deriving Repr, DecidableEq

/-- The argument_typecasters dict the ORM builds: every column name mapped
to the None-safe caster of its type (the identity column to None-safe int). -/
def ORMState.typecasters (st : ORMState) : List (String × (PyVal → Except PyError PyVal)) :=
  st.columns.map (fun nc => (nc.1, NoneSafeType (typecasterOf nc.2.type)))

/-- The two name-mangled internal slot names passed as ClassFactory
exceptions: the owning-store back-reference and "_ORM" ++ id_key_name. -/
def mappedExceptions : List String := ["_ORMBase__orm", "_ORM__id"]

/-- The mapped-object class the ORM builds via ClassFactory. -/
def ORMState.mappedClass (st : ORMState) : MappedClass :=
  { name := st.table ++ "_Mapper",
    argument_typecasters := st.typecasters,
    exceptions := mappedExceptions }

/-- Python upper() on a type text: char-wise ASCII uppercase (the type
texts the ORM compares are plain ASCII). -/
def strUpper (s : String) : String := String.mk (s.data.map Char.toUpper)

/-- Python 2 equality between the PRAGMA-reported default text and the
schema's default value: a str equals only an equal str, so a non-null
engine default (always text) never equals an int, bool or float default. -/
def pyDefaultEq : Option String → Option PyVal → Bool
  | Option.none, Option.none => true
  | some s, some (PyVal.str t) => s = t
  | _, _ => false

/-- The first pass of sync over the live columns: warn about live columns
missing from the schema, and raise on the first live column whose type text
or default disagrees with the declaration.  Returns the warnings printed
before the error, and the error if one is raised. -/
def checkLiveColumns (ormCols : List (String × ColumnDef)) :
    List LiveColumn → List String × Option PyError
  | [] => ([], Option.none)
  | lc :: rest =>
    match ormCols.lookup lc.name with
    | Option.none =>
      let (ws, e) := checkLiveColumns ormCols rest
      (("Column " ++ lc.name ++ " present in table but not in schema. We will ignore it, so it wont be visible in the ORM!") :: ws, e)
    | some cd =>
      if strUpper lc.colType ≠ sqlTypeOf cd.type then
        ([], some (PyError.typeError ("Column " ++ lc.name ++ " present in table has different type (" ++ strUpper lc.colType ++ ") from the one in schema (" ++ sqlTypeOf cd.type ++ ")!")))
      else if ¬ pyDefaultEq lc.dflt cd.defaultValue then
        ([], some (PyError.typeError ("Column " ++ lc.name ++ " present in table has different default value from the one in schema")))
      else checkLiveColumns ormCols rest

/-- Effect of ALTER TABLE ADD COLUMN name TYPE [DEFAULT v] on a live table:
the engine records the default expression text and gives every preexisting
row the default constant (NULL when there is none). -/
def addColumnToTable (tbl : DbTable) (colName : String) (cd : ColumnDef) : DbTable :=
  let newCol : LiveColumn :=
    { name := colName, colType := sqlTypeOf cd.type,
      dflt := cd.defaultValue.map pyStr,
      dfltVal := cd.defaultValue.getD PyVal.none }
  { tbl with
    columns := tbl.columns ++ [newCol],
    rows := tbl.rows.map (fun r => { r with cells := r.cells ++ [(colName, cd.defaultValue.getD PyVal.none)] }) }

def Db.setTable (db : Db) (tname : String) (tbl : DbTable) : Db :=
  Db.mk (setAssoc db.tables tname tbl)

/-- The second pass of sync: one ALTER per declared column absent from the
live table, in declaration order. -/
def runAlters (tname : String) (tbl : DbTable) :
    List (String × ColumnDef) → DbTable × List Stmt
  | [] => (tbl, [])
  | (n, cd) :: rest =>
    let (t1, s1) := runAlters tname (addColumnToTable tbl n cd) rest
    (t1, Stmt.alterAddColumn tname n :: s1)

/-- Outcome of one sync call: the database afterwards, the statements
executed, the warnings printed, and the exception raised, if any. -/
structure SyncResult : Type where
  db : Db
  trace : List Stmt
  warnings : List String
  error : Option PyError
deriving Repr, DecidableEq

/-- ORM.sync from src/orm.py: create the table if absent; otherwise check
every live column against the declaration (raising on a type or default
mismatch before any DDL) and ALTER in the missing declared columns. -/
def ORMState.sync (st : ORMState) (db : Db) : SyncResult :=
  match db.tables.lookup st.table with
  | some tbl =>
    let checked := checkLiveColumns st.columns tbl.columns
    match checked.2 with
    | some e =>
      { db := db, trace := [Stmt.tableExistsCheck st.table, Stmt.tableInfo st.table],
        warnings := checked.1, error := some e }
    | Option.none =>
      let liveNames := tbl.columns.map LiveColumn.name
      let missing := st.columns.filter (fun nc => !(liveNames.contains nc.1))
      let altered := runAlters st.table tbl missing
      { db := db.setTable st.table altered.1,
        trace := Stmt.tableExistsCheck st.table :: Stmt.tableInfo st.table :: altered.2,
        warnings := checked.1, error := Option.none }
  | Option.none =>
    let chunks := st.columns.filter (fun nc => !(nc.1 == id_key_name))
    if chunks.isEmpty then
      -- CREATE TABLE t (__id INTEGER PRIMARY KEY AUTOINCREMENT, ) is a sqlite syntax error
      { db := db, trace := [Stmt.tableExistsCheck st.table], warnings := [],
        error := some (PyError.operationalError "near ) : syntax error") }
    else
      let newTbl : DbTable :=
        { idName := id_key_name,
          columns :=
            { name := id_key_name, colType := "INTEGER",
              dflt := Option.none, dfltVal := PyVal.none } ::
            chunks.map (fun nc =>
              { name := nc.1, colType := sqlTypeOf nc.2.type,
                dflt := nc.2.defaultValue.map pyStr,
                dfltVal := nc.2.defaultValue.getD PyVal.none }),
          rows := [], nextId := 1 }
      { db := db.setTable st.table newTbl,
        trace := [Stmt.tableExistsCheck st.table, Stmt.createTable st.table],
        warnings := [], error := Option.none }

/-- The per-column validation loop of ORM construction, in order: a long
definition must carry a type key; the type must be one of the four known
types.  On success it yields self.columns minus the identity entry. -/
def buildColumns : List (String × InputColumn) → Except PyError (List (String × ColumnDef))
  | [] => Except.ok []
  | (n, c) :: rest =>
    match c with
    | InputColumn.longMissingType =>
      Except.error (PyError.typeError "Column definition must have type parameter.")
    | InputColumn.long t d =>
      if (known_column_types t).isNone then
        Except.error (PyError.typeError "Illegal column type! Must be one of known_column_types.")
      else (buildColumns rest).map (fun cs => (n, ColumnDef.mk t d) :: cs)
    | InputColumn.short t =>
      if (known_column_types t).isNone then
        Except.error (PyError.typeError "Illegal column type! Must be one of known_column_types.")
      else (buildColumns rest).map (fun cs => (n, ColumnDef.mk t Option.none) :: cs)

/-- Outcome of ORM construction: the constructed state on success, the
database afterwards, the events (connection opening and executed
statements) in order, the warnings, and the exception raised, if any. -/
structure InitResult : Type where
  state : Option ORMState
  db : Db
  trace : List Event
  warnings : List String
  error : Option PyError

/-- ORM construction from src/orm.py: reject a schema reusing the reserved
identity name (before the sqlite connection is opened); open the
connection; validate each column definition in order; then sync. -/
def ORM.init (schema : Schema) (db : Db) : InitResult :=
  if schema.columns.any (fun c => c.1 == id_key_name) then
    { state := Option.none, db := db, trace := [], warnings := [],
      error := some (PyError.typeError ("Cannot use " ++ id_key_name ++ " as column name. It is reserved.")) }
  else
    match buildColumns schema.columns with
    | Except.error e =>
      { state := Option.none, db := db, trace := [Event.connect], warnings := [],
        error := some e }
    | Except.ok cols =>
      let st : ORMState :=
        { table := schema.table,
          columns := (id_key_name, ColumnDef.mk PyType.int Option.none) :: cols }
      let s := st.sync db
      { state := if s.error.isSome then Option.none else some st,
        db := s.db,
        trace := Event.connect :: s.trace.map Event.stmt,
        warnings := s.warnings,
        error := s.error }

/-- The default-filling loop of ORM.__call__: every declared column (never
the identity column) absent from the keyword arguments is added with its
default key value, or None when the definition has no default key. -/
def fillDefaults (cols : List (String × ColumnDef)) (kwargs : List (String × PyVal)) :
    List (String × PyVal) :=
  cols.foldl
    (fun acc nc =>
      if nc.1 = id_key_name then acc
      else if (acc.lookup nc.1).isSome then acc
      else acc ++ [(nc.1, nc.2.default.getD PyVal.none)])
    kwargs

/-- ORM.__call__ from src/orm.py: fill in defaults for absent declared
columns, then construct a mapped object from the keyword arguments. -/
def ORMState.call (st : ORMState) (kwargs : List (String × PyVal)) : Except PyError Record :=
  Record.construct st.mappedClass (fillDefaults st.columns kwargs)

/-- The keyword arguments row_to_object builds from one result row of the
SELECT over the given column list. -/
def rowKwargs (tbl : DbTable) (colNames : List String) (r : DbRow) : List (String × PyVal) :=
  colNames.map (fun c =>
    (c, if c = tbl.idName then PyVal.int r.rowid else (r.cells.lookup c).getD PyVal.none))

/-- Materialize every fetched row as a mapped object, first row first; a
raise during construction propagates. -/
def rowsToObjects (cls : MappedClass) (tbl : DbTable) (colNames : List String) :
    List DbRow → Except PyError (List Record)
  | [] => Except.ok []
  | r :: rest =>
    match Record.construct cls (rowKwargs tbl colNames r) with
    | Except.error e => Except.error e
    | Except.ok obj => (rowsToObjects cls tbl colNames rest).map (fun os => obj :: os)

/-- ORM.get_all_objects from src/orm.py: SELECT the declared column list
(identity included) from the table and build one mapped object per row.
The SELECT raises without returning rows when the table, or one of the
named columns, does not exist. -/
def ORMState.get_all_objects (st : ORMState) (db : Db) :
    List Stmt × Except PyError (List Record) :=
  let colNames := st.columns.map Prod.fst
  match db.tables.lookup st.table with
  | Option.none =>
    ([], Except.error (PyError.operationalError ("no such table: " ++ st.table)))
  | some tbl =>
    if colNames.all (fun c => (tbl.columns.map LiveColumn.name).contains c) then
      ([Stmt.selectAll st.table colNames], rowsToObjects st.mappedClass tbl colNames tbl.rows)
    else ([], Except.error (PyError.operationalError "no such column"))

/-- The attribute collection shared by insert_row and update: every column
of self.columns that the record actually carries, with its current value,
in self.columns order. -/
def collectPairs (st : ORMState) (r : Record) : List (String × PyVal) :=
  st.columns.filterMap (fun nc => (r.fields.lookup nc.1).map (fun v => (nc.1, v)))

/-- Values of the non-identity columns of a newly inserted row: the value
from the INSERT column list when present, else the column default. -/
def mkCells (cols : List LiveColumn) (idName : String) (pairs : List (String × PyVal)) :
    List (String × PyVal) :=
  (cols.filter (fun c => c.name ≠ idName)).map
    (fun c => (c.name, (pairs.lookup c.name).getD c.dfltVal))

/-- Effect of INSERT INTO t (cols) VALUES (vals) on a live table: the
AUTOINCREMENT id is assigned when the INSERT omits the identity column or
supplies NULL for it. -/
def dbInsert (tbl : DbTable) (pairs : List (String × PyVal)) : DbTable :=
  match pairs.lookup tbl.idName with
  | some (PyVal.int n) =>
    { tbl with rows := tbl.rows ++ [DbRow.mk n (mkCells tbl.columns tbl.idName pairs)],
               nextId := max tbl.nextId (n + 1) }
  | _ =>
    { tbl with rows := tbl.rows ++ [DbRow.mk tbl.nextId (mkCells tbl.columns tbl.idName pairs)],
               nextId := tbl.nextId + 1 }

/-- The result of SELECT id FROM t ORDER BY id DESC LIMIT 1: the largest
row identity, if the table has any row. -/
def maxRowId : List DbRow → Option Int
  | [] => Option.none
  | r :: rest =>
    match maxRowId rest with
    | Option.none => some r.rowid
    | some m => some (max r.rowid m)

/-- Outcome of one row operation: the database afterwards, the statements
executed, and the record (possibly updated) or the exception raised. -/
structure OpResult : Type where
  db : Db
  trace : List Stmt
  result : Except PyError Record

/-- ORM.insert_row from src/orm.py: INSERT the carried columns, re-read the
largest identity value, and assign it onto the record through the
synthesized setattr (hence through the None-safe int typecaster). -/
def ORMState.insert_row (st : ORMState) (db : Db) (r : Record) : OpResult :=
  let pairs := collectPairs st r
  if pairs.isEmpty then
    -- zip of an empty list of pairs raises in the source before any statement
    { db := db, trace := [],
      result := Except.error (PyError.typeError "need more than 0 values to unpack") }
  else
    match db.tables.lookup st.table with
    | Option.none =>
      { db := db, trace := [],
        result := Except.error (PyError.operationalError ("no such table: " ++ st.table)) }
    | some tbl =>
      if pairs.all (fun p => (tbl.columns.map LiveColumn.name).contains p.1) then
        let tbl1 := dbInsert tbl pairs
        let baseTrace := [Stmt.insertInto st.table (pairs.map Prod.fst), Stmt.selectLastId st.table]
        match maxRowId tbl1.rows with
        | Option.none =>
          -- unreachable: the row just inserted is present
          { db := db.setTable st.table tbl1, trace := baseTrace,
            result := Except.error (PyError.valueError "list index out of range") }
        | some newId =>
          match setattrE st.mappedClass r id_key_name (PyVal.int newId) with
          | Except.ok r1 =>
            { db := db.setTable st.table tbl1, trace := baseTrace, result := Except.ok r1 }
          | Except.error e =>
            { db := db.setTable st.table tbl1, trace := baseTrace, result := Except.error e }
      else
        { db := db, trace := [],
          result := Except.error (PyError.operationalError "no such column") }

/-- Effect of UPDATE t SET c = v WHERE id = idv.  Setting the INTEGER
PRIMARY KEY itself rewrites the row identity; a non-integer value there is
a datatype mismatch. -/
def applyUpdate (tbl : DbTable) (c : String) (v : PyVal) (idv : PyVal) :
    Except PyError DbTable :=
  if c = tbl.idName then
    match v with
    | PyVal.int n =>
      Except.ok { tbl with rows := tbl.rows.map (fun row =>
        if PyVal.int row.rowid = idv then { row with rowid := n } else row) }
    | _ => Except.error (PyError.operationalError "datatype mismatch")
  else
    Except.ok { tbl with rows := tbl.rows.map (fun row =>
      if PyVal.int row.rowid = idv then { row with cells := setAssoc row.cells c v } else row) }

/-- The per-column UPDATE loop of ORM.update: one single-column statement
per carried column; each statement commits on its own, so statements before
a failing one stay applied. -/
def runUpdates (st : ORMState) (tbl : DbTable) (idv : PyVal) :
    List (String × PyVal) → DbTable × List Stmt × Option PyError
  | [] => (tbl, [], Option.none)
  | (c, v) :: rest =>
    if (tbl.columns.map LiveColumn.name).contains c then
      match applyUpdate tbl c v idv with
      | Except.ok tbl1 =>
        let after := runUpdates st tbl1 idv rest
        (after.1, Stmt.updateColumn st.table c :: after.2.1, after.2.2)
      | Except.error e => (tbl, [], some e)
    else (tbl, [], some (PyError.operationalError "no such column"))

/-- ORM.update from src/orm.py: for every carried column, a single-column
UPDATE keyed on the identity value read from the record (an absent identity
raises while the first statement's parameters are built). -/
def ORMState.update (st : ORMState) (db : Db) (r : Record) : OpResult :=
  let pairs := collectPairs st r
  match pairs with
  | [] => { db := db, trace := [], result := Except.ok r }
  | _ :: _ =>
    match r.fields.lookup id_key_name with
    | Option.none =>
      { db := db, trace := [],
        result := Except.error (PyError.attributeError (st.mappedClass.name ++ " object has no attribute " ++ id_key_name)) }
    | some idv =>
      match db.tables.lookup st.table with
      | Option.none =>
        { db := db, trace := [],
          result := Except.error (PyError.operationalError ("no such table: " ++ st.table)) }
      | some tbl =>
        let ran := runUpdates st tbl idv pairs
        { db := db.setTable st.table ran.1, trace := ran.2.1,
          result := match ran.2.2 with
                    | Option.none => Except.ok r
                    | some e => Except.error e }

/-- ORMBase.save from src/orm.py: insert when the record does not carry the
identity attribute, update when it does. -/
def ORMState.save (st : ORMState) (db : Db) (r : Record) : OpResult :=
  if r.hasattr id_key_name then st.update db r else st.insert_row db r

/-- The value the last assignment of a key in a keyword list leaves behind,
if the key is assigned at all. -/
def lastValue (kws : List (String × PyVal)) (k : String) : Option PyVal :=
  match kws with
  | [] => Option.none
  | (k1, v) :: rest =>
    match lastValue rest k with
    | some w => some w
    | Option.none => if k1 = k then some v else Option.none

theorem lookup_cons {α : Type} (k k1 : String) (v1 : α) (t : List (String × α)) :
    ((k1, v1) :: t).lookup k = if k = k1 then some v1 else t.lookup k := by
  by_cases h : k = k1
  · simp [List.lookup, h]
  · simp [List.lookup, h, beq_false_of_ne h]

theorem lookup_eq_none_iff {α : Type} (l : List (String × α)) (k : String) :
    l.lookup k = Option.none ↔ k ∉ l.map Prod.fst := by
  induction l with
  | nil => simp [List.lookup]
  | cons h t ih =>
    cases h with
    | mk k1 v1 => by_cases hk : k = k1 <;> simp [lookup_cons, hk, ih]

theorem lookup_mem_keys {α : Type} {l : List (String × α)} {k : String} {v : α}
    (h : l.lookup k = some v) : k ∈ l.map Prod.fst := by
  by_contra hk
  rw [← lookup_eq_none_iff] at hk
  rw [hk] at h
  exact Option.noConfusion h

theorem setAssoc_lookup_self {α : Type} (l : List (String × α)) (k : String) (v : α) :
    (setAssoc l k v).lookup k = some v := by
  induction l with
  | nil => simp [setAssoc, lookup_cons]
  | cons h t ih =>
    cases h with
    | mk k1 v1 =>
      by_cases hk : k1 = k
      · subst hk; simp [setAssoc, lookup_cons]
      · have hk2 : ¬ k = k1 := fun he => hk he.symm
        simp [setAssoc, hk, lookup_cons, hk2, ih]

theorem setAssoc_lookup_ne {α : Type} (l : List (String × α)) (k k2 : String) (v : α)
    (h : k2 ≠ k) : (setAssoc l k v).lookup k2 = l.lookup k2 := by
  induction l with
  | nil => simp [setAssoc, lookup_cons, h]
  | cons hd t ih =>
    cases hd with
    | mk k1 v1 =>
      by_cases hk : k1 = k
      · subst hk
        simp [setAssoc, lookup_cons, h]
      · by_cases hk2 : k2 = k1 <;> simp [setAssoc, hk, lookup_cons, hk2, ih]

theorem lookup_map_snd {α β : Type} (f : α → β) (l : List (String × α)) (k : String) :
    (l.map (fun nc => (nc.1, f nc.2))).lookup k = (l.lookup k).map f := by
  induction l with
  | nil => rfl
  | cons h t ih =>
    cases h with
    | mk k1 v1 => by_cases hk : k = k1 <;> simp [lookup_cons, hk, ih]

theorem lastValue_eq_none_iff (kws : List (String × PyVal)) (k : String) :
    lastValue kws k = Option.none ↔ k ∉ kws.map Prod.fst := by
  induction kws with
  | nil => simp [lastValue]
  | cons h t ih =>
    cases h with
    | mk k1 v1 =>
      simp only [lastValue, List.map_cons, List.mem_cons]
      cases hlv : lastValue t k with
      | some w =>
        constructor
        · intro hc; exact Option.noConfusion hc
        · intro hc
          exfalso
          have hm : k ∈ t.map Prod.fst := by
            by_contra hm
            rw [← ih] at hm
            rw [hm] at hlv
            exact Option.noConfusion hlv
          exact hc (Or.inr hm)
      | none =>
        have hmem : k ∉ t.map Prod.fst := ih.mp hlv
        by_cases hk : k1 = k
        · subst hk
          simp [hmem]
        · have hk2 : ¬ k = k1 := fun he => hk he.symm
          simp [hk, hmem, hk2]

theorem lastValue_append_single (l : List (String × PyVal)) (n k : String) (d : PyVal) :
    lastValue (l ++ [(n, d)]) k = if n = k then some d else lastValue l k := by
  induction l with
  | nil => by_cases hn : n = k <;> simp [lastValue, hn]
  | cons h t ih =>
    cases h with
    | mk k1 v1 =>
      by_cases hn : n = k
      · subst hn
        simp [lastValue, ih]
      · simp [lastValue, ih, hn]

theorem setattrE_ok_exceptions {cls : MappedClass} {r : Record} {k : String} {v : PyVal}
    (hex : k ∈ cls.exceptions) :
    setattrE cls r k v = Except.ok
      { r with exemptSet := if k ∈ r.exemptSet then r.exemptSet else k :: r.exemptSet } := by
  simp [setattrE, Record.setattr, hex]

theorem setattrE_ok_set {cls : MappedClass} {r : Record} {k : String} {v : PyVal} {r1 : Record}
    (hex : k ∉ cls.exceptions) (h : setattrE cls r k v = Except.ok r1) :
    ∃ tc w, cls.argument_typecasters.lookup k = some tc ∧ tc v = Except.ok w ∧
      r1 = { r with fields := setAssoc r.fields k w } := by
  unfold setattrE Record.setattr at h
  rw [if_neg hex] at h
  cases hlk : cls.argument_typecasters.lookup k with
  | none => simp [hlk] at h
  | some tc =>
    cases hv : tc v with
    | error e => simp [hlk, hv] at h
    | ok w =>
      simp [hlk, hv] at h
      exact ⟨tc, w, rfl, hv, h.symm⟩

theorem setattrE_ok_fields_ne {cls : MappedClass} {r : Record} {k : String} {v : PyVal}
    {r1 : Record} (k2 : String) (hne : k2 ≠ k)
    (h : setattrE cls r k v = Except.ok r1) :
    r1.fields.lookup k2 = r.fields.lookup k2 := by
  by_cases hex : k ∈ cls.exceptions
  · rw [setattrE_ok_exceptions hex] at h
    simp at h
    rw [← h]
  · obtain ⟨tc, w, hlk, hv, hr⟩ := setattrE_ok_set hex h
    subst hr
    simp [setAssoc_lookup_ne _ _ _ _ hne]

theorem setattrE_ok_isSome {cls : MappedClass} {r : Record} {k : String} {v : PyVal}
    {r1 : Record} (k2 : String)
    (h : setattrE cls r k v = Except.ok r1) (hs : (r.fields.lookup k2).isSome) :
    (r1.fields.lookup k2).isSome := by
  by_cases hk : k2 = k
  · subst hk
    by_cases hex : k2 ∈ cls.exceptions
    · rw [setattrE_ok_exceptions hex] at h
      simp at h
      rw [← h]
      exact hs
    · obtain ⟨tc, w, hlk, hv, hr⟩ := setattrE_ok_set hex h
      subst hr
      simp [setAssoc_lookup_self]
  · rw [setattrE_ok_fields_ne k2 hk h]
    exact hs

theorem setattrE_ok_exempt {cls : MappedClass} {r : Record} {k : String} {v : PyVal}
    {r1 : Record} (k2 : String)
    (h : setattrE cls r k v = Except.ok r1) (h2 : k2 ∈ r1.exemptSet) :
    k2 ∈ r.exemptSet ∨ k2 = k := by
  by_cases hex : k ∈ cls.exceptions
  · rw [setattrE_ok_exceptions hex] at h
    simp at h
    rw [← h] at h2
    by_cases hm : k ∈ r.exemptSet
    · rw [if_pos hm] at h2
      exact Or.inl h2
    · rw [if_neg hm] at h2
      rcases List.mem_cons.mp h2 with he | hm2
      · exact Or.inr he
      · exact Or.inl hm2
  · obtain ⟨tc, w, hlk, hv, hr⟩ := setattrE_ok_set hex h
    subst hr
    exact Or.inl h2

theorem applyKwargs_ok_not_mem {cls : MappedClass} {r r1 : Record}
    {kws : List (String × PyVal)} (k : String)
    (hnm : k ∉ kws.map Prod.fst)
    (h : applyKwargs cls r kws = Except.ok r1) :
    r1.fields.lookup k = r.fields.lookup k := by
  induction kws generalizing r with
  | nil =>
    simp [applyKwargs] at h
    subst h
    rfl
  | cons hd t ih =>
    cases hd with
    | mk k1 v1 =>
      simp only [List.map_cons, List.mem_cons] at hnm
      push_neg at hnm
      simp only [applyKwargs] at h
      cases hsE : setattrE cls r k1 v1 with
      | error e => simp [hsE] at h
      | ok r2 =>
        simp [hsE] at h
        rw [ih hnm.2 h]
        exact setattrE_ok_fields_ne k hnm.1 hsE

theorem applyKwargs_ok_isSome {cls : MappedClass} {r r1 : Record}
    {kws : List (String × PyVal)} (k : String)
    (h : applyKwargs cls r kws = Except.ok r1) (hs : (r.fields.lookup k).isSome) :
    (r1.fields.lookup k).isSome := by
  induction kws generalizing r with
  | nil =>
    simp [applyKwargs] at h
    subst h
    exact hs
  | cons hd t ih =>
    cases hd with
    | mk k1 v1 =>
      simp only [applyKwargs] at h
      cases hsE : setattrE cls r k1 v1 with
      | error e => simp [hsE] at h
      | ok r2 =>
        simp [hsE] at h
        exact ih h (setattrE_ok_isSome k hsE hs)

theorem applyKwargs_ok_last {cls : MappedClass} {r r1 : Record}
    {kws : List (String × PyVal)} {k : String} {v : PyVal}
    (hex : k ∉ cls.exceptions) (hlast : lastValue kws k = some v)
    (h : applyKwargs cls r kws = Except.ok r1) :
    ∃ tc w, cls.argument_typecasters.lookup k = some tc ∧ tc v = Except.ok w ∧
      r1.fields.lookup k = some w := by
  induction kws generalizing r with
  | nil => simp [lastValue] at hlast
  | cons hd t ih =>
    cases hd with
    | mk k1 v1 =>
      simp only [applyKwargs] at h
      cases hsE : setattrE cls r k1 v1 with
      | error e => simp [hsE] at h
      | ok r2 =>
        simp [hsE] at h
        cases hlv : lastValue t k with
        | some w0 =>
          have hw0 : w0 = v := by
            simp [lastValue, hlv] at hlast
            exact hlast
          subst hw0
          exact ih hlv h
        | none =>
          have hk1 : k1 = k ∧ v1 = v := by
            simp only [lastValue, hlv] at hlast
            by_cases hkk : k1 = k
            · simp [hkk] at hlast
              exact ⟨hkk, hlast⟩
            · simp [hkk] at hlast
          obtain ⟨hkk, hvv⟩ := hk1
          subst hkk
          subst hvv
          obtain ⟨tc, w, hlk, hv, hr2⟩ := setattrE_ok_set hex hsE
          refine ⟨tc, w, hlk, hv, ?_⟩
          have hnm : k1 ∉ t.map Prod.fst := (lastValue_eq_none_iff t k1).mp hlv
          rw [applyKwargs_ok_not_mem k1 hnm h]
          subst hr2
          simp [setAssoc_lookup_self]

theorem applyKwargs_ok_exempt {cls : MappedClass} {r r1 : Record}
    {kws : List (String × PyVal)} (k : String)
    (h : applyKwargs cls r kws = Except.ok r1) (h2 : k ∈ r1.exemptSet) :
    k ∈ r.exemptSet ∨ k ∈ kws.map Prod.fst := by
  induction kws generalizing r with
  | nil =>
    simp [applyKwargs] at h
    subst h
    exact Or.inl h2
  | cons hd t ih =>
    cases hd with
    | mk k1 v1 =>
      simp only [applyKwargs] at h
      cases hsE : setattrE cls r k1 v1 with
      | error e => simp [hsE] at h
      | ok r2 =>
        simp [hsE] at h
        rcases ih h with hm | hmem
        · rcases setattrE_ok_exempt k hsE hm with hm2 | he
          · exact Or.inl hm2
          · exact Or.inr (by simp [he])
        · exact Or.inr (by simp [hmem])

theorem applyKwargs_ok_mem_isSome {cls : MappedClass} {r r1 : Record}
    {kws : List (String × PyVal)} {k : String} {v : PyVal}
    (hmem : (k, v) ∈ kws) (hex : k ∉ cls.exceptions)
    (h : applyKwargs cls r kws = Except.ok r1) :
    (r1.fields.lookup k).isSome := by
  induction kws generalizing r with
  | nil => cases hmem
  | cons hd t ih =>
    cases hd with
    | mk k1 v1 =>
      simp only [applyKwargs] at h
      cases hsE : setattrE cls r k1 v1 with
      | error e => simp [hsE] at h
      | ok r2 =>
        simp [hsE] at h
        rcases List.mem_cons.mp hmem with he | hmem2
        · cases he
          obtain ⟨tc, w, hlk, hv, hr2⟩ := setattrE_ok_set hex hsE
          have hsome : (r2.fields.lookup k).isSome := by
            subst hr2
            simp [setAssoc_lookup_self]
          exact applyKwargs_ok_isSome k h hsome
        · exact ih hmem2 h

theorem construct_ok_elim {cls : MappedClass} {kws : List (String × PyVal)} {r1 : Record}
    (h : Record.construct cls kws = Except.ok r1) :
    ∃ r0, applyKwargs cls (Record.mk [] []) kws = Except.ok r0 ∧
      setattrE cls r0 "_ORMBase__orm" PyVal.none = Except.ok r1 := by
  unfold Record.construct at h
  cases hak : applyKwargs cls (Record.mk [] []) kws with
  | error e => simp [hak, Except.bind] at h
  | ok r0 =>
    simp [hak, Except.bind] at h
    exact ⟨r0, rfl, h⟩

theorem construct_ok_lookup_last {cls : MappedClass} {kws : List (String × PyVal)}
    {r1 : Record} {k : String} {v : PyVal}
    (hex : k ∉ cls.exceptions) (hob : k ≠ "_ORMBase__orm")
    (hlast : lastValue kws k = some v)
    (h : Record.construct cls kws = Except.ok r1) :
    ∃ tc w, cls.argument_typecasters.lookup k = some tc ∧ tc v = Except.ok w ∧
      r1.fields.lookup k = some w := by
  obtain ⟨r0, hak, hset⟩ := construct_ok_elim h
  obtain ⟨tc, w, hlk, hv, hl⟩ := applyKwargs_ok_last hex hlast hak
  refine ⟨tc, w, hlk, hv, ?_⟩
  rw [setattrE_ok_fields_ne k hob hset]
  exact hl

theorem construct_ok_lookup_not_mem {cls : MappedClass} {kws : List (String × PyVal)}
    {r1 : Record} (k : String)
    (hnm : k ∉ kws.map Prod.fst) (hob : k ≠ "_ORMBase__orm")
    (h : Record.construct cls kws = Except.ok r1) :
    r1.fields.lookup k = Option.none := by
  obtain ⟨r0, hak, hset⟩ := construct_ok_elim h
  rw [setattrE_ok_fields_ne k hob hset, applyKwargs_ok_not_mem k hnm hak]
  rfl

theorem construct_ok_not_exempt {cls : MappedClass} {kws : List (String × PyVal)}
    {r1 : Record} (k : String)
    (hnm : k ∉ kws.map Prod.fst) (hob : k ≠ "_ORMBase__orm")
    (h : Record.construct cls kws = Except.ok r1) :
    k ∉ r1.exemptSet := by
  intro hmem
  obtain ⟨r0, hak, hset⟩ := construct_ok_elim h
  rcases setattrE_ok_exempt k hset hmem with hm | he
  · rcases applyKwargs_ok_exempt k hak hm with hm2 | hmk
    · cases hm2
    · exact hnm hmk
  · exact hob he

theorem construct_ok_mem_isSome {cls : MappedClass} {kws : List (String × PyVal)}
    {r1 : Record} {k : String} {v : PyVal}
    (hmem : (k, v) ∈ kws) (hex : k ∉ cls.exceptions)
    (h : Record.construct cls kws = Except.ok r1) :
    (r1.fields.lookup k).isSome := by
  obtain ⟨r0, hak, hset⟩ := construct_ok_elim h
  exact setattrE_ok_isSome k hset (applyKwargs_ok_mem_isSome hmem hex hak)

theorem fd_preserve (cols : List (String × ColumnDef)) (acc : List (String × PyVal))
    (c : String) (d : PyVal)
    (hsome : (acc.lookup c).isSome) (hlast : lastValue acc c = some d) :
    lastValue (fillDefaults cols acc) c = some d ∧
      ((fillDefaults cols acc).lookup c).isSome := by
  induction cols generalizing acc with
  | nil => exact ⟨hlast, hsome⟩
  | cons hd rest ih =>
    cases hd with
    | mk n cd =>
      show lastValue (fillDefaults rest _) c = some d ∧ _
      by_cases hn : n = id_key_name
      · simp only [fillDefaults, List.foldl_cons, if_pos hn]
        exact ih acc hsome hlast
      · by_cases hs : (acc.lookup n).isSome
        · simp only [fillDefaults, List.foldl_cons, if_neg hn, if_pos hs]
          exact ih acc hsome hlast
        · have hnc : n ≠ c := by
            intro he
            rw [he] at hs
            exact hs hsome
          simp only [fillDefaults, List.foldl_cons, if_neg hn, if_neg hs]
          apply ih
          · rw [List.lookup_append]
            obtain ⟨x, hx⟩ := Option.isSome_iff_exists.mp hsome
            simp [hx]
          · rw [lastValue_append_single, if_neg hnc]
            exact hlast

theorem fd_lastValue_filled (cols : List (String × ColumnDef))
    (kwargs : List (String × PyVal)) (c : String) (cd : ColumnDef)
    (hc : cols.lookup c = some cd) (hne : c ≠ id_key_name)
    (hkw : kwargs.lookup c = Option.none) :
    lastValue (fillDefaults cols kwargs) c = some (cd.default.getD PyVal.none) := by
  induction cols generalizing kwargs with
  | nil => exact absurd hc (by simp [List.lookup])
  | cons hd rest ih =>
    cases hd with
    | mk n cd0 =>
      by_cases hcn : c = n
      · subst hcn
        rw [lookup_cons, if_pos rfl] at hc
        injection hc with hc
        subst hc
        have hs : ¬ (kwargs.lookup c).isSome = true := by simp [hkw]
        simp only [fillDefaults, List.foldl_cons, if_neg (fun he => hne he),
          if_neg hs]
        refine (fd_preserve rest _ c _ ?_ ?_).1
        · rw [List.lookup_append, hkw]
          simp [lookup_cons]
        · rw [lastValue_append_single, if_pos rfl]
      · rw [lookup_cons, if_neg hcn] at hc
        by_cases hn : n = id_key_name
        · simp only [fillDefaults, List.foldl_cons, if_pos hn]
          exact ih kwargs hc hkw
        · by_cases hs : (kwargs.lookup n).isSome
          · simp only [fillDefaults, List.foldl_cons, if_neg hn, if_pos hs]
            exact ih kwargs hc hkw
          · simp only [fillDefaults, List.foldl_cons, if_neg hn, if_neg hs]
            refine ih _ hc ?_
            rw [List.lookup_append, hkw]
            have hcn2 : ¬ (c = n) := hcn
            simp [lookup_cons, hcn2]

theorem fd_lookup_id (cols : List (String × ColumnDef)) (kwargs : List (String × PyVal))
    (hkw : kwargs.lookup id_key_name = Option.none) :
    (fillDefaults cols kwargs).lookup id_key_name = Option.none := by
  induction cols generalizing kwargs with
  | nil => exact hkw
  | cons hd rest ih =>
    cases hd with
    | mk n cd =>
      by_cases hn : n = id_key_name
      · simp only [fillDefaults, List.foldl_cons, if_pos hn]
        exact ih kwargs hkw
      · by_cases hs : (kwargs.lookup n).isSome
        · simp only [fillDefaults, List.foldl_cons, if_neg hn, if_pos hs]
          exact ih kwargs hkw
        · simp only [fillDefaults, List.foldl_cons, if_neg hn, if_neg hs]
          apply ih
          rw [List.lookup_append, hkw]
          have hne : ¬ (id_key_name = n) := fun he => hn he.symm
          simp [lookup_cons, hne]

/-- A column definition that the construction loop rejects: a dict without
a type key, or a type outside the four known scalar types. -/
def badInputColumn : InputColumn → Bool
  | InputColumn.longMissingType => true
  | InputColumn.long t _ => (known_column_types t).isNone
  | InputColumn.short t => (known_column_types t).isNone

theorem buildColumns_err (cols : List (String × InputColumn))
    (hbad : cols.any (fun c => badInputColumn c.2) = true) :
    ∃ e, buildColumns cols = Except.error e := by
  induction cols with
  | nil => simp at hbad
  | cons hd rest ih =>
    cases hd with
    | mk n c =>
      rw [List.any_cons] at hbad
      cases c with
      | longMissingType => exact ⟨_, rfl⟩
      | long t d =>
        by_cases hk : (known_column_types t).isNone
        · exact ⟨PyError.typeError "Illegal column type! Must be one of known_column_types.",
            by simp [buildColumns, hk]⟩
        · have hrest : rest.any (fun c => badInputColumn c.2) = true := by
            simp [badInputColumn, hk] at hbad
            simpa using hbad
          obtain ⟨e, he⟩ := ih hrest
          exact ⟨e, by simp [buildColumns, hk, he, Except.map]⟩
      | short t =>
        by_cases hk : (known_column_types t).isNone
        · exact ⟨PyError.typeError "Illegal column type! Must be one of known_column_types.",
            by simp [buildColumns, hk]⟩
        · have hrest : rest.any (fun c => badInputColumn c.2) = true := by
            simp [badInputColumn, hk] at hbad
            simpa using hbad
          obtain ⟨e, he⟩ := ih hrest
          exact ⟨e, by simp [buildColumns, hk, he, Except.map]⟩

theorem checkLiveColumns_conflict (ormCols : List (String × ColumnDef))
    (cols : List LiveColumn)
    (hconf : ∃ lc ∈ cols, ∃ cd, ormCols.lookup lc.name = some cd ∧
      (strUpper lc.colType ≠ sqlTypeOf cd.type ∨ pyDefaultEq lc.dflt cd.defaultValue = false)) :
    (checkLiveColumns ormCols cols).2.isSome := by
  induction cols with
  | nil => simp at hconf
  | cons lc0 rest ih =>
    obtain ⟨lc, hmem, cd, hcd, hdis⟩ := hconf
    cases hl : ormCols.lookup lc0.name with
    | none =>
      have hrest : lc ∈ rest := by
        rcases List.mem_cons.mp hmem with he | hr
        · subst he
          rw [hl] at hcd
          exact Option.noConfusion hcd
        · exact hr
      simp only [checkLiveColumns, hl]
      cases hr : checkLiveColumns ormCols rest with
      | mk ws e =>
        have := ih ⟨lc, hrest, cd, hcd, hdis⟩
        rw [hr] at this
        simpa using this
    | some cd0 =>
      simp only [checkLiveColumns, hl]
      by_cases ht : strUpper lc0.colType ≠ sqlTypeOf cd0.type
      · simp [ht]
      · by_cases hd : ¬ pyDefaultEq lc0.dflt cd0.defaultValue = true
        · simp [ht, hd]
        · push_neg at ht hd
          rw [if_neg (by simp [ht]), if_neg (by simp [hd])]
          apply ih
          rcases List.mem_cons.mp hmem with he | hr
          · exfalso
            subst he
            rw [hl] at hcd
            injection hcd with hcd
            subst hcd
            rcases hdis with hx | hx
            · exact hx ht
            · rw [hd] at hx
              exact Bool.noConfusion hx
          · exact ⟨lc, hr, cd, hcd, hdis⟩

theorem rowsToObjects_ok_mem {cls : MappedClass} {tbl : DbTable} {cols : List String}
    {rows : List DbRow} {objs : List Record}
    (h : rowsToObjects cls tbl cols rows = Except.ok objs) :
    ∀ obj ∈ objs, ∃ row, row ∈ rows ∧
      Record.construct cls (rowKwargs tbl cols row) = Except.ok obj := by
  induction rows generalizing objs with
  | nil =>
    simp [rowsToObjects] at h
    subst h
    intro obj hobj
    cases hobj
  | cons row rest ih =>
    simp only [rowsToObjects] at h
    cases hc : Record.construct cls (rowKwargs tbl cols row) with
    | error e => simp [hc] at h
    | ok obj0 =>
      rw [hc] at h
      cases hr : rowsToObjects cls tbl cols rest with
      | error e => simp [hr, Except.map] at h
      | ok os =>
        rw [hr] at h
        simp [Except.map] at h
        subst h
        intro obj hobj
        rcases List.mem_cons.mp hobj with he | hm
        · subst he
          exact ⟨row, List.mem_cons_self _ _, hc⟩
        · obtain ⟨row2, hrm, hcon⟩ := ih hr obj hm
          exact ⟨row2, List.mem_cons_of_mem _ hrm, hcon⟩

theorem runAlters_names (tname : String) (ms : List (String × ColumnDef)) (tbl : DbTable) :
    (runAlters tname tbl ms).1.columns.map LiveColumn.name =
      tbl.columns.map LiveColumn.name ++ ms.map Prod.fst := by
  induction ms generalizing tbl with
  | nil => simp [runAlters]
  | cons hd rest ih =>
    cases hd with
    | mk n cd =>
      simp only [runAlters]
      cases hr : runAlters tname (addColumnToTable tbl n cd) rest with
      | mk t1 s1 =>
        have hn := ih (addColumnToTable tbl n cd)
        rw [hr] at hn
        simp only at hn
        simp only [hn, addColumnToTable, List.map_append]
        simp

theorem dbInsert_columns (tbl : DbTable) (ps : List (String × PyVal)) :
    (dbInsert tbl ps).columns = tbl.columns := by
  cases h : ps.lookup tbl.idName with
  | none => simp [dbInsert, h]
  | some v => cases v <;> simp [dbInsert, h]

theorem dbInsert_rows (tbl : DbTable) (ps : List (String × PyVal)) :
    ∃ row, (dbInsert tbl ps).rows = tbl.rows ++ [row] := by
  cases h : ps.lookup tbl.idName with
  | none =>
    exact ⟨DbRow.mk tbl.nextId (mkCells tbl.columns tbl.idName ps), by simp [dbInsert, h]⟩
  | some v =>
    cases v with
    | int n => exact ⟨DbRow.mk n (mkCells tbl.columns tbl.idName ps), by simp [dbInsert, h]⟩
    | none => exact ⟨DbRow.mk tbl.nextId (mkCells tbl.columns tbl.idName ps), by simp [dbInsert, h]⟩
    | real q => exact ⟨DbRow.mk tbl.nextId (mkCells tbl.columns tbl.idName ps), by simp [dbInsert, h]⟩
    | bool b => exact ⟨DbRow.mk tbl.nextId (mkCells tbl.columns tbl.idName ps), by simp [dbInsert, h]⟩
    | str s => exact ⟨DbRow.mk tbl.nextId (mkCells tbl.columns tbl.idName ps), by simp [dbInsert, h]⟩

theorem maxRowId_append_isSome (l : List DbRow) (r : DbRow) :
    (maxRowId (l ++ [r])).isSome := by
  induction l with
  | nil => simp [maxRowId]
  | cons x t ih =>
    obtain ⟨m, hm⟩ := Option.isSome_iff_exists.mp ih
    simp only [List.cons_append, maxRowId, List.append_eq, hm]
    rfl

theorem runUpdates_no_insert (st : ORMState) (tbl : DbTable) (idv : PyVal)
    (ps : List (String × PyVal)) :
    insertCount (runUpdates st tbl idv ps).2.1 = 0 := by
  induction ps generalizing tbl with
  | nil => rfl
  | cons hd rest ih =>
    cases hd with
    | mk c v =>
      simp only [runUpdates]
      by_cases hc : (tbl.columns.map LiveColumn.name).contains c
      · rw [if_pos hc]
        cases ha : applyUpdate tbl c v idv with
        | error e => rfl
        | ok tbl1 =>
          simp only
          cases hr : runUpdates st tbl1 idv rest with
          | mk t2 p2 =>
            have := ih tbl1
            rw [hr] at this
            simp only at this
            simp [insertCount, List.filter, Stmt.isInsert] at this ⊢
            exact this
      · rw [if_neg hc]
        rfl

theorem update_no_insert (st : ORMState) (db : Db) (r : Record) :
    insertCount (st.update db r).trace = 0 := by
  unfold ORMState.update
  cases hp : collectPairs st r with
  | nil => rfl
  | cons hd t =>
    simp only
    cases hl : r.fields.lookup id_key_name with
    | none => rfl
    | some idv =>
      simp only
      cases ht : db.tables.lookup st.table with
      | none => rfl
      | some tbl =>
        simp only
        exact runUpdates_no_insert st tbl idv (hd :: t)

theorem db_lookup_setTable_self (db : Db) (t : String) (tbl : DbTable) :
    (db.setTable t tbl).tables.lookup t = some tbl := by
  simp [Db.setTable, setAssoc_lookup_self]

theorem sync_success_live (st : ORMState) (db : Db)
    (h : (st.sync db).error = Option.none) :
    ∃ tbl1, (st.sync db).db.tables.lookup st.table = some tbl1 ∧
      ∀ n ∈ st.columns.map Prod.fst, n ∈ tbl1.columns.map LiveColumn.name := by
  unfold ORMState.sync at h ⊢
  cases hl : db.tables.lookup st.table with
  | some tbl =>
    simp only [hl] at h ⊢
    cases hc : (checkLiveColumns st.columns tbl.columns).2 with
    | some e => simp [hc] at h
    | none =>
      simp only [hc] at h ⊢
      refine ⟨_, db_lookup_setTable_self db st.table _, ?_⟩
      intro n hn
      rw [runAlters_names]
      by_cases hmem : n ∈ tbl.columns.map LiveColumn.name
      · exact List.mem_append_left _ hmem
      · refine List.mem_append_right _ ?_
        obtain ⟨p, hp, hfst⟩ := List.mem_map.mp hn
        refine List.mem_map.mpr ⟨p, ?_, hfst⟩
        refine List.mem_filter.mpr ⟨hp, ?_⟩
        simp only [Bool.not_eq_true', ← Bool.not_eq_true]
        intro hcon
        rw [hfst] at hcon
        exact hmem (List.elem_iff.mp hcon)
  | none =>
    simp only [hl] at h ⊢
    cases he : (st.columns.filter (fun nc => !(nc.1 == id_key_name))).isEmpty with
    | true => simp [he] at h
    | false =>
      simp only [he] at h ⊢
      refine ⟨_, db_lookup_setTable_self db st.table _, ?_⟩
      intro n hn
      simp only [List.map_cons, List.map_map]
      by_cases hid : n = id_key_name
      · exact hid ▸ List.mem_cons_self _ _
      · refine List.mem_cons_of_mem _ ?_
        obtain ⟨p, hp, hfst⟩ := List.mem_map.mp hn
        refine List.mem_map.mpr ⟨p, ?_, by simp [Function.comp]; exact hfst⟩
        refine List.mem_filter.mpr ⟨hp, ?_⟩
        simp only [Bool.not_eq_true', beq_eq_false_iff_ne, ne_eq]
        rw [hfst]
        exact hid

theorem insert_row_success (st : ORMState) (db : Db) (r : Record) (tbl : DbTable)
    (hp : collectPairs st r ≠ [])
    (hl : db.tables.lookup st.table = some tbl)
    (hall : (collectPairs st r).all
      (fun p => (tbl.columns.map LiveColumn.name).contains p.1) = true)
    (m : Int) (hm : maxRowId (dbInsert tbl (collectPairs st r)).rows = some m)
    (r1 : Record) (hset : setattrE st.mappedClass r id_key_name (PyVal.int m) = Except.ok r1) :
    st.insert_row db r = OpResult.mk (db.setTable st.table (dbInsert tbl (collectPairs st r)))
      [Stmt.insertInto st.table ((collectPairs st r).map Prod.fst), Stmt.selectLastId st.table]
      (Except.ok r1) := by
  unfold ORMState.insert_row
  simp only [List.isEmpty_eq_false.mpr hp, hl, hall, if_false, if_true, hm, hset]
  rfl

theorem save_insert_of_no_id (st : ORMState) (db : Db) (r : Record)
    (h : r.hasattr id_key_name = false) :
    st.save db r = st.insert_row db r := by
  simp [ORMState.save, h]

theorem save_update_of_id (st : ORMState) (db : Db) (r : Record)
    (h : r.hasattr id_key_name = true) :
    st.save db r = st.update db r := by
  simp [ORMState.save, h]

/-- The empty database a fresh connection file presents. -/
def dbEmpty : Db := Db.mk []

/-- The running example schema: columns name Text and age Integer, no
defaults. -/
def peopleSchema : Schema :=
  Schema.mk "people"
    [("name", InputColumn.short PyType.str), ("age", InputColumn.short PyType.int)]

/-- Constructing the example store against the empty database. -/
def peopleInit : InitResult := ORM.init peopleSchema dbEmpty

/-- The ORM state that construction of peopleSchema produces. -/
def peopleSt : ORMState :=
  ORMState.mk "people"
    [(id_key_name, ColumnDef.mk PyType.int Option.none),
     ("name", ColumnDef.mk PyType.str Option.none),
     ("age", ColumnDef.mk PyType.int Option.none)]

/-- The record peopleSt.call builds for name bob, age 30. -/
def bobRec : Record :=
  Record.mk [("name", PyVal.str "bob"), ("age", PyVal.int 30)] ["_ORMBase__orm"]

/-- The outcome of saving bobRec into the freshly created table. -/
def bobSaved : OpResult := peopleSt.save peopleInit.db bobRec

/-- bobRec after the insert assigned identity 1. -/
def bobRecSaved : Record :=
  Record.mk [("name", PyVal.str "bob"), ("age", PyVal.int 30), (id_key_name, PyVal.int 1)]
    ["_ORMBase__orm"]

/-- The record fetch_all materializes back from the single row. -/
def bobFetched : Record :=
  Record.mk [(id_key_name, PyVal.int 1), ("name", PyVal.str "bob"), ("age", PyVal.int 30)]
    ["_ORMBase__orm"]

/-- A schema declaring the column age Integer with default 5. -/
def c1Schema : Schema :=
  Schema.mk "people" [("age", InputColumn.long PyType.int (some (PyVal.int 5)))]

/-- Constructing the defaulted store against the empty database; the first
sync creates the table and succeeds. -/
def c1Init : InitResult := ORM.init c1Schema dbEmpty

/-- The ORM state c1Schema constructs. -/
def c1St : ORMState :=
  ORMState.mk "people"
    [(id_key_name, ColumnDef.mk PyType.int Option.none),
     ("age", ColumnDef.mk PyType.int (some (PyVal.int 5)))]

/-- C1: reconciliation is not idempotent on this code once a column
declares a default.  Constructing the store over an empty database
succeeds (the first sync creates the table), yet a second sync of the very
same declared schema against the resulting live table executes no DDL and
raises a TypeError: the engine reports the stored default as the text 5
while the schema holds the integer 5, and the Python 2 inequality between
a string and an integer is always true.  This contradicts the sync
docstring, which promises an exception only for a column whose live
definition differs from the declared one, so the claim states the intent
and the code is at fault. -/
theorem c1_second_sync_raises :
    c1Init.error = Option.none ∧
    c1Init.state = some c1St ∧
    ddlCount (c1St.sync c1Init.db).trace = 0 ∧
    (c1St.sync c1Init.db).error =
      some (PyError.typeError
        "Column age present in table has different default value from the one in schema") := by
  exact ⟨rfl, rfl, rfl, rfl⟩

/-- C4: the round trip on an empty table with columns name Text and age
Integer: create(name bob, age 30).save() inserts exactly one row and
assigns identity 1; fetch_all then yields exactly one record whose name is
bob, whose age is 30, and whose identity equals the identity assigned at
insert time and is not None. -/
theorem c4_roundtrip :
    peopleInit.error = Option.none ∧
    peopleInit.state = some peopleSt ∧
    peopleSt.call [("name", PyVal.str "bob"), ("age", PyVal.int 30)] = Except.ok bobRec ∧
    bobSaved.result = Except.ok bobRecSaved ∧
    (peopleSt.get_all_objects bobSaved.db).2 = Except.ok [bobFetched] ∧
    bobFetched.fields.lookup "name" = some (PyVal.str "bob") ∧
    bobFetched.fields.lookup "age" = some (PyVal.int 30) ∧
    bobFetched.fields.lookup id_key_name = bobRecSaved.fields.lookup id_key_name ∧
    bobFetched.fields.lookup id_key_name = some (PyVal.int 1) ∧
    (PyVal.int 1 = PyVal.none → False) := by
  exact ⟨rfl, rfl, rfl, rfl, rfl, rfl, rfl, rfl, rfl, fun h => PyVal.noConfusion h⟩

theorem typecasters_lookup_aux (cols : List (String × ColumnDef)) (k : String) :
    (cols.map (fun nc => (nc.1, NoneSafeType (typecasterOf nc.2.type)))).lookup k
      = (cols.lookup k).map (fun cd => NoneSafeType (typecasterOf cd.type)) := by
  induction cols with
  | nil => rfl
  | cons h t ih =>
    cases h with
    | mk k1 cd1 => by_cases hk : k = k1 <;> simp [lookup_cons, hk, ih]

/-- C5: on a mapped-object instance, assigning a key that is neither one of
the two exempt internal slot names nor a declared coercible field raises a
TypeError whose message names the rejected key and the type name, and the
instance is returned exactly as it was: the raise happens before any
store. -/
theorem c5_invalid_field_atomic (st : ORMState) (r : Record) (k : String) (v : PyVal)
    (hex : k ∉ mappedExceptions)
    (hnc : k ∉ st.columns.map Prod.fst) :
    Record.setattr st.mappedClass r k v =
      (r, some (PyError.typeError
        ("Argument " ++ k ++ " not valid for " ++ (st.table ++ "_Mapper")))) := by
  have hex2 : k ∉ st.mappedClass.exceptions := hex
  have hlk : st.mappedClass.argument_typecasters.lookup k = Option.none := by
    show (st.typecasters).lookup k = Option.none
    unfold ORMState.typecasters
    rw [typecasters_lookup_aux, (lookup_eq_none_iff _ _).mpr hnc]
    rfl
  unfold Record.setattr
  rw [if_neg hex2, hlk]
  rfl

theorem c5_witness :
    Record.setattr peopleSt.mappedClass bobRec "extra" (PyVal.int 5) =
      (bobRec, some (PyError.typeError "Argument extra not valid for people_Mapper")) := by
  have h := c5_invalid_field_atomic peopleSt bobRec "extra" (PyVal.int 5)
    (by decide) (by decide)
  exact h

/-- C6: the None-safe casters never pass None to the wrapped constructor:
None is stored verbatim for every caster, in particular for each of the
four scalar types, and an Integer field assigned None never reads back as
the integer 0; concretely, assigning None to the Integer field age stores
None. -/
theorem c6_none_safe :
    (∀ t, NoneSafeType t PyVal.none = Except.ok PyVal.none) ∧
    NoneSafeType pyIntFn PyVal.none = Except.ok PyVal.none ∧
    NoneSafeType pyFloatFn PyVal.none = Except.ok PyVal.none ∧
    NoneSafeType pyBoolFn PyVal.none = Except.ok PyVal.none ∧
    NoneSafeType pyStrFn PyVal.none = Except.ok PyVal.none ∧
    NoneSafeType pyIntFn PyVal.none ≠ Except.ok (PyVal.int 0) ∧
    Record.setattr peopleSt.mappedClass bobRec "age" PyVal.none =
      (Record.mk [("name", PyVal.str "bob"), ("age", PyVal.none)] ["_ORMBase__orm"],
        Option.none) := by
  exact ⟨fun t => rfl, rfl, rfl, rfl, rfl,
    fun h => PyVal.noConfusion (Except.ok.inj h), rfl⟩

/-- C2: against an existing table, when some live column whose name matches
a declared column differs in the normalized type text or in the default
comparison, sync raises a TypeError (the SchemaConflict of the spec) and
the call executes no DDL statement at all: no CREATE TABLE and no ALTER
TABLE for any pending column. -/
theorem c2_conflict_aborts_before_ddl (st : ORMState) (db : Db) (tbl : DbTable)
    (htbl : db.tables.lookup st.table = some tbl)
    (hconf : ∃ lc ∈ tbl.columns, ∃ cd, st.columns.lookup lc.name = some cd ∧
      (strUpper lc.colType ≠ sqlTypeOf cd.type ∨ pyDefaultEq lc.dflt cd.defaultValue = false)) :
    (st.sync db).error.isSome = true ∧ ddlCount (st.sync db).trace = 0 := by
  have herr := checkLiveColumns_conflict st.columns tbl.columns hconf
  obtain ⟨e, he⟩ := Option.isSome_iff_exists.mp herr
  unfold ORMState.sync
  simp only [htbl, he]
  exact ⟨rfl, rfl⟩

/-- The live table of the C2 example: age INTEGER DEFAULT 0. -/
def c2LiveTbl : DbTable :=
  DbTable.mk id_key_name
    [LiveColumn.mk id_key_name "INTEGER" Option.none PyVal.none,
     LiveColumn.mk "age" "INTEGER" (some "0") (PyVal.int 0)]
    [] 1

def c2Db : Db := Db.mk [("people", c2LiveTbl)]

/-- The declared schema of the C2 example: age Real. -/
def c2St : ORMState :=
  ORMState.mk "people"
    [(id_key_name, ColumnDef.mk PyType.int Option.none),
     ("age", ColumnDef.mk PyType.float Option.none)]

theorem c2_witness :
    (c2St.sync c2Db).error.isSome = true ∧ ddlCount (c2St.sync c2Db).trace = 0 :=
  c2_conflict_aborts_before_ddl c2St c2Db c2LiveTbl (by rfl)
    ⟨LiveColumn.mk "age" "INTEGER" (some "0") (PyVal.int 0), by decide,
     ColumnDef.mk PyType.float Option.none, by rfl, Or.inl (by decide)⟩

/-- C7 counterexample: the identity field IS settable through the create
entry point: passing the reserved identity name as a keyword argument
stores that value as the record's identity, because the default-filling
loop merely skips the identity column and never strips it from the
caller's keyword arguments. -/
theorem c7_counterexample :
    (peopleSt.call [(id_key_name, PyVal.int 5)]).map
      (fun r => r.fields.lookup id_key_name) = Except.ok (some (PyVal.int 5)) := rfl

/-- C7 amended: every declared column absent from the supplied fields is
filled with its declared default (or None when the definition carries no
default), coerced through the column's None-safe caster; and the identity
field is never auto-filled: when the caller does not pass the reserved
identity name, the constructed record does not carry it.  (The identity
field is not blocked, though: an explicitly supplied identity keyword is
stored, as the counterexample shows.) -/
theorem c7_create_defaults (st : ORMState) (kwargs : List (String × PyVal)) (r : Record)
    (hok : st.call kwargs = Except.ok r) :
    (∀ c cd, st.columns.lookup c = some cd → c ≠ id_key_name →
      c ∉ mappedExceptions → kwargs.lookup c = Option.none →
      ∃ w, NoneSafeType (typecasterOf cd.type) (cd.default.getD PyVal.none) = Except.ok w ∧
        r.fields.lookup c = some w) ∧
    (kwargs.lookup id_key_name = Option.none →
      r.fields.lookup id_key_name = Option.none) := by
  have hok2 : Record.construct st.mappedClass (fillDefaults st.columns kwargs) = Except.ok r :=
    hok
  constructor
  · intro c cd hc hne hex hkw
    have hlast := fd_lastValue_filled st.columns kwargs c cd hc hne hkw
    have hob : c ≠ "_ORMBase__orm" := by
      intro he
      exact hex (by rw [he]; exact List.mem_cons_self _ _)
    have hexc : c ∉ st.mappedClass.exceptions := hex
    obtain ⟨tc, w, hlk, hv, hr⟩ := construct_ok_lookup_last hexc hob hlast hok2
    have htc : tc = NoneSafeType (typecasterOf cd.type) := by
      have hl2 : st.mappedClass.argument_typecasters.lookup c =
          some (NoneSafeType (typecasterOf cd.type)) := by
        show (st.typecasters).lookup c = _
        unfold ORMState.typecasters
        rw [typecasters_lookup_aux, hc]
        rfl
      rw [hl2] at hlk
      exact (Option.some.inj hlk).symm
    rw [htc] at hv
    exact ⟨w, hv, hr⟩
  · intro hkw
    have hfd := fd_lookup_id st.columns kwargs hkw
    have hnm : id_key_name ∉ (fillDefaults st.columns kwargs).map Prod.fst :=
      (lookup_eq_none_iff _ _).mp hfd
    exact construct_ok_lookup_not_mem id_key_name hnm (by decide) hok2

/-- The record create builds from the single keyword name a on the example
store: age filled with None, no identity attribute. -/
def c7Rec : Record :=
  Record.mk [("name", PyVal.str "a"), ("age", PyVal.none)] ["_ORMBase__orm"]

theorem c7_witness :
    (∃ w, NoneSafeType (typecasterOf PyType.int) PyVal.none = Except.ok w ∧
      c7Rec.fields.lookup "age" = some w) ∧
    c7Rec.fields.lookup id_key_name = Option.none := by
  have h := c7_create_defaults peopleSt [("name", PyVal.str "a")] c7Rec rfl
  exact ⟨h.1 "age" (ColumnDef.mk PyType.int Option.none) rfl (by decide) (by decide) rfl,
    h.2 rfl⟩

/-- A schema declaring a column whose type is the Python type list, which
is not one of the four known scalar types. -/
def c8BadSchema : Schema :=
  Schema.mk "people" [("x", InputColumn.short (PyType.unknownType "list"))]

/-- A schema reusing the reserved identity name as a column name. -/
def c8ResSchema : Schema :=
  Schema.mk "people" [(id_key_name, InputColumn.short PyType.int)]

/-- C8 counterexample: a schema declaring a column of an unknown scalar
type makes construction raise, but only AFTER the sqlite connection has
been opened: the event trace at the time of the error is exactly the
connect event, so this validation error is not raised before any
connection to the store. -/
theorem c8_counterexample :
    (ORM.init c8BadSchema dbEmpty).error.isSome = true ∧
    (ORM.init c8BadSchema dbEmpty).trace = [Event.connect] := ⟨rfl, rfl⟩

/-- C8 amended: construction-time schema validation raises before any
statement is executed against the database; the reserved-identity-name
error is raised before the connection is opened (empty event trace), while
the unknown-scalar-type error is raised after the connection is opened but
still before any statement (the trace is exactly the connect event). -/
theorem c8_validation_order (schema : Schema) (db : Db) :
    ((schema.columns.any (fun c => c.1 == id_key_name)) = true →
      (ORM.init schema db).error.isSome = true ∧ (ORM.init schema db).trace = []) ∧
    ((schema.columns.any (fun c => c.1 == id_key_name)) = false →
      (schema.columns.any (fun c => badInputColumn c.2)) = true →
      (ORM.init schema db).error.isSome = true ∧
        (ORM.init schema db).trace = [Event.connect]) := by
  constructor
  · intro hres
    unfold ORM.init
    rw [if_pos hres]
    exact ⟨rfl, rfl⟩
  · intro hres hbad
    obtain ⟨e, he⟩ := buildColumns_err schema.columns hbad
    unfold ORM.init
    rw [if_neg (by simp [hres]), he]
    exact ⟨rfl, rfl⟩

theorem c8_witness :
    ((ORM.init c8ResSchema dbEmpty).error.isSome = true ∧
      (ORM.init c8ResSchema dbEmpty).trace = []) ∧
    ((ORM.init c8BadSchema dbEmpty).error.isSome = true ∧
      (ORM.init c8BadSchema dbEmpty).trace = [Event.connect]) :=
  ⟨(c8_validation_order c8ResSchema dbEmpty).1 rfl,
   (c8_validation_order c8BadSchema dbEmpty).2 rfl rfl⟩

/-- C9 counterexample: a record obtained from the create entry point with
the reserved identity name among the keyword arguments carries the
identity attribute (reading it succeeds and yields the supplied value), so
the identity attribute is not entirely absent from every not-yet-saved
record that create returns. -/
theorem c9_counterexample :
    (peopleSt.call [("name", PyVal.str "a"), (id_key_name, PyVal.int 7)]).map
      (fun r => Record.getattr peopleSt.mappedClass r id_key_name) =
      Except.ok (Except.ok (PyVal.int 7)) := rfl

/-- C9 amended: when the caller does not supply the reserved identity name,
the record create returns does not carry the identity attribute at all
(hasattr is false, rather than the attribute being pre-set to None), and
reading the identity raises the standard missing-attribute
AttributeError. -/
theorem c9_identity_absent (st : ORMState) (kwargs : List (String × PyVal)) (r : Record)
    (hok : st.call kwargs = Except.ok r)
    (hnid : kwargs.lookup id_key_name = Option.none) :
    r.hasattr id_key_name = false ∧
    Record.getattr st.mappedClass r id_key_name =
      Except.error (PyError.attributeError
        (st.mappedClass.name ++ " object has no attribute " ++ id_key_name)) := by
  have hok2 : Record.construct st.mappedClass (fillDefaults st.columns kwargs) = Except.ok r :=
    hok
  have hfd := fd_lookup_id st.columns kwargs hnid
  have hnm : id_key_name ∉ (fillDefaults st.columns kwargs).map Prod.fst :=
    (lookup_eq_none_iff _ _).mp hfd
  have hfield := construct_ok_lookup_not_mem id_key_name hnm (by decide) hok2
  have hexm := construct_ok_not_exempt id_key_name hnm (by decide) hok2
  constructor
  · unfold Record.hasattr
    rw [hfield]
    simp only [Option.isSome_none, Bool.false_or]
    rw [← Bool.not_eq_true]
    intro hc
    exact hexm (List.elem_iff.mp hc)
  · unfold Record.getattr
    rw [hfield]

theorem c9_witness :
    c7Rec.hasattr id_key_name = false ∧
    Record.getattr peopleSt.mappedClass c7Rec id_key_name =
      Except.error (PyError.attributeError
        (peopleSt.mappedClass.name ++ " object has no attribute " ++ id_key_name)) :=
  c9_identity_absent peopleSt [("name", PyVal.str "a")] c7Rec rfl rfl

/-- C10: every record fetch_all returns carries the identity attribute: the
identity column is among the selected columns, and the construction of the
fetched record assigns every selected column.  Consequently save on any
fetched record dispatches to the update path and issues no INSERT, against
any database state at the time of that save. -/
theorem c10_fetched_updates (st : ORMState) (db db2 : Db) (recs : List Record)
    (hid : id_key_name ∈ st.columns.map Prod.fst)
    (hok : (st.get_all_objects db).2 = Except.ok recs) :
    ∀ rec ∈ recs, rec.hasattr id_key_name = true ∧
      st.save db2 rec = st.update db2 rec ∧
      insertCount (st.save db2 rec).trace = 0 := by
  intro rec hrec
  unfold ORMState.get_all_objects at hok
  cases hl : db.tables.lookup st.table with
  | none =>
    simp only [hl] at hok
    exact Except.noConfusion hok
  | some tbl =>
    simp only [hl] at hok
    cases hallb : (st.columns.map Prod.fst).all
        (fun c => (tbl.columns.map LiveColumn.name).contains c) with
    | false =>
      simp only [hallb] at hok
      exact Except.noConfusion hok
    | true =>
      simp only [hallb, if_true] at hok
      obtain ⟨rowx, hrm, hcon⟩ := rowsToObjects_ok_mem hok rec hrec
      have hpair : (id_key_name,
          if id_key_name = tbl.idName then PyVal.int rowx.rowid
          else (rowx.cells.lookup id_key_name).getD PyVal.none) ∈
          rowKwargs tbl (st.columns.map Prod.fst) rowx :=
        List.mem_map.mpr ⟨id_key_name, hid, rfl⟩
      have hexk : id_key_name ∉ st.mappedClass.exceptions := by
        show id_key_name ∉ mappedExceptions
        decide
      have hsome := construct_ok_mem_isSome hpair hexk hcon
      have hhas : rec.hasattr id_key_name = true := by
        unfold Record.hasattr
        rw [Bool.or_eq_true]
        exact Or.inl hsome
      refine ⟨hhas, save_update_of_id st db2 rec hhas, ?_⟩
      rw [save_update_of_id st db2 rec hhas]
      exact update_no_insert _ _ _

theorem c10_witness :
    bobFetched.hasattr id_key_name = true ∧
    peopleSt.save bobSaved.db bobFetched = peopleSt.update bobSaved.db bobFetched ∧
    insertCount (peopleSt.save bobSaved.db bobFetched).trace = 0 :=
  c10_fetched_updates peopleSt bobSaved.db bobSaved.db [bobFetched] (by decide) rfl
    bobFetched (List.mem_singleton.mpr rfl)

/-- C3: routing a record that does not carry the identity attribute through
save, against the table a successful sync left behind, performs exactly one
INSERT and no UPDATE; afterwards the record carries a non-null integer
identity value; saving that record again dispatches to the update path,
which issues no INSERT at all. -/
theorem c3_insert_update_routing (st : ORMState) (db0 : Db) (r : Record)
    (hidc : st.columns.lookup id_key_name = some (ColumnDef.mk PyType.int Option.none))
    (hsync : (st.sync db0).error = Option.none)
    (hnoid : r.hasattr id_key_name = false)
    (hpairs : collectPairs st r ≠ []) :
    ∃ r1 m,
      (st.save (st.sync db0).db r).result = Except.ok r1 ∧
      insertCount (st.save (st.sync db0).db r).trace = 1 ∧
      updateCount (st.save (st.sync db0).db r).trace = 0 ∧
      r1.fields.lookup id_key_name = some (PyVal.int m) ∧
      r1.hasattr id_key_name = true ∧
      st.save (st.save (st.sync db0).db r).db r1 =
        st.update (st.save (st.sync db0).db r).db r1 ∧
      insertCount (st.save (st.save (st.sync db0).db r).db r1).trace = 0 := by
  obtain ⟨tbl1, hl, hnames⟩ := sync_success_live st db0 hsync
  have hall : (collectPairs st r).all
      (fun p => (tbl1.columns.map LiveColumn.name).contains p.1) = true := by
    rw [List.all_eq_true]
    intro p hp
    obtain ⟨nc, hnc, hpv⟩ := List.mem_filterMap.mp hp
    obtain ⟨v, hv, hfv⟩ := Option.map_eq_some'.mp hpv
    have hkeys : p.1 ∈ st.columns.map Prod.fst := by
      rw [← hfv]
      exact List.mem_map.mpr ⟨nc, hnc, rfl⟩
    exact List.elem_iff.mpr (hnames p.1 hkeys)
  obtain ⟨row, hrow⟩ := dbInsert_rows tbl1 (collectPairs st r)
  have hms : (maxRowId (dbInsert tbl1 (collectPairs st r)).rows).isSome := by
    rw [hrow]
    exact maxRowId_append_isSome _ _
  obtain ⟨m, hm⟩ := Option.isSome_iff_exists.mp hms
  have hex : id_key_name ∉ st.mappedClass.exceptions := by
    show id_key_name ∉ mappedExceptions
    decide
  have hcast : st.mappedClass.argument_typecasters.lookup id_key_name =
      some (NoneSafeType (typecasterOf PyType.int)) := by
    show (st.typecasters).lookup id_key_name = _
    unfold ORMState.typecasters
    rw [typecasters_lookup_aux, hidc]
    rfl
  have hsetE : setattrE st.mappedClass r id_key_name (PyVal.int m) =
      Except.ok (Record.mk (setAssoc r.fields id_key_name (PyVal.int m)) r.exemptSet) := by
    unfold setattrE Record.setattr
    rw [if_neg hex, hcast]
    rfl
  have hins := insert_row_success st (st.sync db0).db r tbl1 hpairs hl hall m hm _ hsetE
  have hs1 : st.save (st.sync db0).db r = st.insert_row (st.sync db0).db r :=
    save_insert_of_no_id st _ r hnoid
  rw [hs1, hins]
  refine ⟨Record.mk (setAssoc r.fields id_key_name (PyVal.int m)) r.exemptSet, m,
    rfl, rfl, rfl, ?_, ?_, ?_, ?_⟩
  · simp [setAssoc_lookup_self]
  · simp [Record.hasattr, setAssoc_lookup_self]
  · apply save_update_of_id
    simp [Record.hasattr, setAssoc_lookup_self]
  · rw [save_update_of_id]
    · exact update_no_insert _ _ _
    · simp [Record.hasattr, setAssoc_lookup_self]

theorem c3_witness :
    ∃ r1 m,
      (peopleSt.save (peopleSt.sync dbEmpty).db bobRec).result = Except.ok r1 ∧
      insertCount (peopleSt.save (peopleSt.sync dbEmpty).db bobRec).trace = 1 ∧
      updateCount (peopleSt.save (peopleSt.sync dbEmpty).db bobRec).trace = 0 ∧
      r1.fields.lookup id_key_name = some (PyVal.int m) ∧
      r1.hasattr id_key_name = true ∧
      peopleSt.save (peopleSt.save (peopleSt.sync dbEmpty).db bobRec).db r1 =
        peopleSt.update (peopleSt.save (peopleSt.sync dbEmpty).db bobRec).db r1 ∧
      insertCount (peopleSt.save (peopleSt.save (peopleSt.sync dbEmpty).db bobRec).db r1).trace = 0 :=
  c3_insert_update_routing peopleSt dbEmpty bobRec rfl rfl rfl (by decide)
